import Mathlib

/-!
Verification of the paleontology-analytics normalization-and-binning pipeline
and its analysis engines, shallowly embedded from the Python source
(src/normalization/normalize.py, src/normalization/schema.py,
src/analysis/basic_stats.py, src/analysis/advanced_stats.py,
src/analysis/sota_stats.py, src/analysis/advanced_sota.py,
src/analysis/export_web_data.py).

Floating-point values are modelled as exact rationals; pandas/numpy missing
values (None / NaN) are modelled by an explicit null marker; fallible
computations return Option.
-/

namespace Paleo

/-! ## Binner

Every analysis file computes bins with the same pandas expression, e.g.
sota_stats.py line 29: df["time_bin"] = (df["mid_ma"] / 5).round() * 5 and
lines 32-33 for lat_bin / lng_bin.  numpy/pandas .round() rounds halves to
the nearest even integer, which roundHalfEven models exactly on rationals. -/

/-- Round a rational to the nearest integer, ties to the even neighbor
(the behavior of pandas/numpy Series.round on floats). -/
def roundHalfEven (q : ℚ) : ℤ :=
  let f : ℤ := Int.floor q
  let frac : ℚ := q - (f : ℚ)
  if frac < 1/2 then f
  else if 1/2 < frac then f + 1
  else if Even f then f else f + 1

/-- time_bin: (mid_ma / 5).round() * 5 — sota_stats.py line 29. -/
def time_bin (mid_ma : ℚ) : ℚ := (roundHalfEven (mid_ma / 5) : ℚ) * 5

/-- locality bin: ((lat/5).round()*5, (lng/5).round()*5) — sota_stats.py lines 32-33. -/
def locality_bin (lat lng : ℚ) : ℚ × ℚ :=
  ((roundHalfEven (lat / 5) : ℚ) * 5, (roundHalfEven (lng / 5) : ℚ) * 5)

/-- The binning expression as written in basic_stats.py line 24. -/
def basic_stats_time_bin (mid_ma : ℚ) : ℚ := (roundHalfEven (mid_ma / 5) : ℚ) * 5

/-- The binning expression as written in advanced_stats.py line 87 (SQS). -/
def sqs_time_bin (mid_ma : ℚ) : ℚ := (roundHalfEven (mid_ma / 5) : ℚ) * 5

/-- The binning expression as written in advanced_sota.py line 17 (rates). -/
def rates_time_bin (mid_ma : ℚ) : ℚ := (roundHalfEven (mid_ma / 5) : ℚ) * 5

/-- The binning expression as written in advanced_sota.py line 161 (null model). -/
def null_model_time_bin (mid_ma : ℚ) : ℚ := (roundHalfEven (mid_ma / 5) : ℚ) * 5

/-- The binning expression as written in export_web_data.py line 24. -/
def export_time_bin (mid_ma : ℚ) : ℚ := (roundHalfEven (mid_ma / 5) : ℚ) * 5

/-! ## Schema registry and Normalizer finalization

schema.py defines OCCURRENCE_SCHEMA as an ordered mapping from canonical
column names to dtype strings.  normalize.py's _finalize_dataframe (lines
123-139) adds missing canonical columns as None, selects the canonical
columns in schema order, and coerces each column per its dtype:
string columns via astype(str) (stringifying nulls to their literal
representation), float64 columns via pd.to_numeric(errors="coerce"). -/

/-- A pandas cell: a string, a float (exact rational model), or a missing
value (None / NaN). -/
inductive Cell where
  | str : String → Cell
  | num : ℚ → Cell
  | null : Cell
deriving DecidableEq, Repr

abbrev Column := List Cell

/-- A pandas DataFrame at the granularity the claims need: a row count and
an ordered list of named columns (each column has nrows cells). -/
structure DataFrame where
  nrows : ℕ
  cols : List (String × Column)
deriving DecidableEq, Repr

/-- OCCURRENCE_SCHEMA from schema.py lines 3-21, in declared order. -/
def OCCURRENCE_SCHEMA : List (String × String) :=
  [("occurrence_id", "string"),
   ("scientific_name", "string"),
   ("rank", "string"),
   ("max_ma", "float64"),
   ("min_ma", "float64"),
   ("mid_ma", "float64"),
   ("lat", "float64"),
   ("lng", "float64"),
   ("phylum", "string"),
   ("class", "string"),
   ("order", "string"),
   ("family", "string"),
   ("genus", "string"),
   ("environment", "string"),
   ("source_db", "string"),
   ("reference_no", "string"),
   ("primary_reference", "string")]

/-- Python str() of a cell, as applied by astype(str).  A missing value is
stringified to its literal representation ("None" for a None object; NaN
floats stringify to "nan" — either way a non-null string, which is what the
claims depend on). -/
def pyStr : Cell → String
  | Cell.str s => s
  | Cell.num q => toString q
  | Cell.null => "None"

/-- Parse a (possibly signed) decimal digit string. -/
def parseDigits (cs : List Char) : Option ℕ :=
  if cs.isEmpty then none
  else
    cs.foldl
      (fun acc c =>
        match acc with
        | none => none
        | some n => if c.isDigit then some (n * 10 + (c.toNat - 48)) else none)
      (some 0)

/-- Decimal rational parser modelling pd.to_numeric on a string: an optional
sign, an integer part, and an optional fractional part; anything else is
unparsable. -/
def pyParseDecimal (s : String) : Option ℚ :=
  let cs := s.toList
  let (neg, body) :=
    match cs with
    | '-' :: rest => (true, rest)
    | '+' :: rest => (false, rest)
    | _ => (false, cs)
  let intPart := body.takeWhile (fun c => c ≠ '.')
  let rest := body.dropWhile (fun c => c ≠ '.')
  let mag : Option ℚ :=
    match rest with
    | [] =>
      match parseDigits intPart with
      | some n => some (n : ℚ)
      | none => none
    | '.' :: fracs =>
      match parseDigits intPart, parseDigits fracs with
      | some n, some fr => some ((n : ℚ) + (fr : ℚ) / ((10 : ℚ) ^ fracs.length))
      | _, _ => none
    | _ => none
  mag.map (fun q => if neg then -q else q)

/-- pd.to_numeric(cell, errors="coerce"): numbers pass through, strings are
parsed (unparsable becomes NaN, modelled null), missing stays missing. -/
def toNumericCoerce : Cell → Cell
  | Cell.num q => Cell.num q
  | Cell.str s =>
    match pyParseDecimal s with
    | some q => Cell.num q
    | none => Cell.null
  | Cell.null => Cell.null

/-- Per-dtype column coercion — _finalize_dataframe lines 130-134. -/
def coerceColumn (dtype : String) (col : Column) : Column :=
  if dtype = "string" then col.map (fun c => Cell.str (pyStr c))
  else if dtype = "float64" then col.map toNumericCoerce
  else col

/-- Whether the frame already has a column of this name. -/
def dfHasCol (cols : List (String × Column)) (c : String) : Bool :=
  cols.any (fun p => p.1 == c)

/-- Column lookup (first match, as pandas column selection on unique labels). -/
def dfLookup (cols : List (String × Column)) (c : String) : Column :=
  ((cols.find? (fun p => p.1 == c)).map Prod.snd).getD []

/-- _finalize_dataframe lines 124-126: for each schema column absent from the
frame, append it as an all-None column. -/
def addMissingCols (nrows : ℕ) (cols : List (String × Column)) : List (String × Column) :=
  OCCURRENCE_SCHEMA.foldl
    (fun acc p =>
      if dfHasCol acc p.1 then acc
      else acc ++ [(p.1, List.replicate nrows Cell.null)])
    cols

/-- _finalize_dataframe lines 124-134: add missing canonical columns, select
exactly the canonical columns in schema order, coerce each per its dtype. -/
def finalizeDataFrame (df : DataFrame) : DataFrame :=
  let added := addMissingCols df.nrows df.cols
  { nrows := df.nrows
    cols := OCCURRENCE_SCHEMA.map (fun p => (p.1, coerceColumn p.2 (dfLookup added p.1))) }

/-! ## Analysis-side row model

The analyses read the normalizer's parquet output back as rows.  A float64
column cell reads back as a number or a missing value; a string column cell
reads back as a string (post-astype(str), string columns contain no
missing values) or missing. -/

/-- One occurrence row as seen by the analyses: the two fields every
bin-based analysis filters on (basic_stats.py line 20 and its twins). -/
structure AnalysisRow where
  mid_ma : Option ℚ
  genus : Option String
deriving DecidableEq, Repr

/-- Reading a cell of a float64 column: NaN/None is missing. -/
def cellToFloat : Cell → Option ℚ
  | Cell.num q => some q
  | _ => none

/-- Reading a cell of a string column: None is missing, a string is present. -/
def cellToStr : Cell → Option String
  | Cell.str s => some s
  | _ => none

/-- Row extraction from a (finalized) frame: the mid_ma and genus columns
read positionally. -/
def rowsOf (df : DataFrame) : List AnalysisRow :=
  (List.range df.nrows).map
    (fun i =>
      { mid_ma := ((dfLookup df.cols "mid_ma")[i]?).bind cellToFloat
        genus := ((dfLookup df.cols "genus")[i]?).bind cellToStr })

/-- df.dropna(subset=["mid_ma", "genus"]) — basic_stats.py line 20,
advanced_sota.py line 16, advanced_stats.py line 86. -/
def dropnaMidGenus (rows : List AnalysisRow) : List AnalysisRow :=
  rows.filter (fun r => r.mid_ma.isSome && r.genus.isSome)

/-- Raw diversity of one time bin — basic_stats.py lines 20-27: drop rows
with missing mid_ma/genus, keep the rows binned to b, count distinct genus
values. -/
def plot_diversity_curve_count (rows : List AnalysisRow) (b : ℚ) : ℕ :=
  ((((dropnaMidGenus rows).filter
      (fun r => (r.mid_ma.map time_bin) == some b)).filterMap
      (fun r => r.genus)).dedup).length

/-! ## Rate & Significance Engine: origination/extinction rates

calculate_rates, advanced_sota.py lines 19-55: walk the time bins oldest
first carrying the previous (older) bin's genus set; for each bin with a
nonzero genus total emit originations = |current \ prev|, extinctions =
|current \ next| and the two rates, then advance prev. -/

/-- One emitted rate record (advanced_sota.py lines 46-53). -/
structure RateRecord where
  time : ℚ
  origination_rate : ℚ
  extinction_rate : ℚ
  total_genera : ℕ
  originations : ℕ
  extinctions : ℕ
deriving DecidableEq, Repr

/-- The genus set of the immediately next-younger bin, or the empty set for
the youngest bin — advanced_sota.py lines 27-31. -/
def nextGenera : List (ℚ × Finset String) → Finset String
  | [] => ∅
  | (_, n) :: _ => n

/-- The loop body of calculate_rates over (time_bin, genus-set) pairs sorted
oldest (largest Ma) first.  prev is the previous processed bin's genus set
(initially empty); a bin whose genus total is zero is skipped without
updating prev, exactly as the continue at line 35 does. -/
def calculate_rates_loop (prev : Finset String) :
    List (ℚ × Finset String) → List RateRecord
  | [] => []
  | (t, current) :: rest =>
    if current.card = 0 then calculate_rates_loop prev rest
    else
      { time := t
        origination_rate := ((current \ prev).card : ℚ) / (current.card : ℚ)
        extinction_rate := ((current \ nextGenera rest).card : ℚ) / (current.card : ℚ)
        total_genera := current.card
        originations := (current \ prev).card
        extinctions := (current \ nextGenera rest).card } :: calculate_rates_loop current rest

/-- calculate_rates on the per-bin genus sets, oldest first (advanced_sota.py
line 19 sorts descending), starting from an empty prev set (line 22). -/
def calculate_rates (bins : List (ℚ × Finset String)) : List RateRecord :=
  calculate_rates_loop ∅ bins

/-! ## Diversity Engine: SQS

calculate_sqs_diversity, advanced_stats.py lines 93-119: per bin take
value_counts of genus, divide by the total to get frequency shares, sort
descending, and consume shares until the cumulative share reaches the
quota, reporting how many genera were consumed. -/

/-- The accumulation loop of lines 111-117: consume frequencies until the
running total (starting from acc) reaches the quota; report how many were
consumed (all of them when the quota is never reached). -/
def sqsConsume (quota : ℚ) (acc : ℚ) : List ℚ → ℕ
  | [] => 0
  | f :: rest =>
    if quota ≤ acc + f then 1
    else 1 + sqsConsume quota (acc + f) rest

/-- pandas value_counts on the bin's genus column: one count per distinct
genus. -/
def value_counts (occs : List String) : List ℕ :=
  occs.dedup.map (fun g => occs.count g)

/-- SQS diversity of one bin's genus occurrence list at a quota
(advanced_stats.py lines 93-119); the bin is assumed nonempty, empty bins
being skipped by the caller (line 103). -/
def calculate_sqs_diversity (occs : List String) (quota : ℚ) : ℕ :=
  let counts := value_counts occs
  let total : ℚ := (occs.length : ℚ)
  let freqs := counts.map (fun (c : ℕ) => (c : ℚ) / total)
  let sorted := List.insertionSort (fun a b : ℚ => b ≤ a) freqs
  sqsConsume quota 0 sorted

/-! ## Rate & Significance Engine: null-model p-value

calculate_null_model, advanced_sota.py lines 194-212: each permutation
iteration rebuilds the graph and recomputes modularity inside a bare
try/except whose except branch is pass, so a raising iteration contributes
nothing to null_modularities; the p-value is then
sum(1 for m in null_modularities if m >= observed) / len(null_modularities),
which raises ZeroDivisionError when every iteration failed. -/

/-- The p-value computation over the observed modularity and the outcome of
each attempted iteration (some m = modularity m computed, none = the
iteration raised and was swallowed by the bare except at line 208).  The
result is none exactly when the final division raises ZeroDivisionError. -/
def null_model_p_value (observed : ℚ) (iters : List (Option ℚ)) : Option ℚ :=
  let null_modularities := iters.filterMap id
  if null_modularities.length = 0 then none
  else
    some ((null_modularities.countP (fun m => decide (observed ≤ m)) : ℚ) /
      (null_modularities.length : ℚ))

/-! ## Network Engine per-bin loop

analyze_biogeographic_dynamics, sota_stats.py lines 42-88: per time-bin
group, skip bins with fewer than 100 occurrences or fewer than 5 distinct
localities or genera; otherwise compute modularity inside try/except
(np.nan on exception, modelled none) and append a result row with the
bin's mean absolute latitude and raw genus diversity, then continue with
the next bin. -/

/-- One occurrence row of a bin group as the network engine sees it. -/
structure NxOccRow where
  locality : ℤ × ℤ
  genus : String
  lat : ℚ
deriving DecidableEq, Repr

/-- A time-bin group together with the outcome of the try block at lines
62-68 (bipartite projection, greedy modularity communities, modularity):
some m when the networkx calls return modularity m, none when they raise. -/
structure BinGroup where
  time_bin : ℚ
  rows : List NxOccRow
  graphComp : Option ℚ
deriving DecidableEq, Repr

/-- group["locality"].unique() as a set. -/
def binLocalities (g : BinGroup) : Finset (ℤ × ℤ) :=
  (g.rows.map (fun r => r.locality)).toFinset

/-- group["genus"].unique() as a set. -/
def binGenera (g : BinGroup) : Finset String :=
  (g.rows.map (fun r => r.genus)).toFinset

/-- group["lat"].abs().mean() — sota_stats.py line 75. -/
def meanAbsLat (g : BinGroup) : ℚ :=
  ((g.rows.map (fun r => |r.lat|)).sum) / (g.rows.length : ℚ)

/-- The two skip guards, sota_stats.py lines 43 and 52. -/
def sotaQualifies (g : BinGroup) : Bool :=
  decide (100 ≤ g.rows.length) &&
    (decide (5 ≤ (binLocalities g).card) && decide (5 ≤ (binGenera g).card))

/-- One result row, sota_stats.py lines 80-85; modularity is none when the
try block raised (np.nan at line 70). -/
structure SotaRow where
  time_bin : ℚ
  modularity : Option ℚ
  mean_abs_lat : ℚ
  diversity : ℕ
deriving DecidableEq, Repr

/-- The row appended for a qualifying bin group. -/
def sotaRowOf (g : BinGroup) : SotaRow :=
  { time_bin := g.time_bin
    modularity := g.graphComp
    mean_abs_lat := meanAbsLat g
    diversity := (binGenera g).card }

/-- The per-bin loop of analyze_biogeographic_dynamics (lines 42-85). -/
def analyze_biogeographic_dynamics : List BinGroup → List SotaRow
  | [] => []
  | g :: rest =>
    if g.rows.length < 100 then analyze_biogeographic_dynamics rest
    else if (binLocalities g).card < 5 ∨ (binGenera g).card < 5 then
      analyze_biogeographic_dynamics rest
    else sotaRowOf g :: analyze_biogeographic_dynamics rest

/-! ## Randomness model

Model of the process-global numpy random state at the granularity the
reproducibility claim needs: each unseeded draw reads and advances the
ambient state, so its result is a function of that state; a draw made from
an explicit fixed seed (pandas sample(random_state=42)) uses a fresh
generator and neither reads nor advances the ambient state.
calculate_null_model (advanced_sota.py line 195) calls
np.random.permutation with no prior seeding; export_web_data.py line 31
calls df.sample(n=20000, random_state=42). -/

/-- The global random-generator state. -/
abbrev RngState := ℕ

/-- A pseudo-random permutation drawn from a generator state: the state
selects which rearrangement is produced, and the call advances the state.
(Any faithful model of an RNG-driven shuffle is state-dependent; a rotation
indexed by the state suffices for the claims.) -/
def drawPermutation (σ : RngState) (xs : List α) : List α × RngState :=
  (xs.rotate (σ % (xs.length + 1)), σ + 1)

/-- pandas DataFrame.sample(n=n, random_state=rs): with an explicit
random_state the rows drawn depend only on that seed and the data, and the
ambient state is untouched; with no random_state the ambient state is
consumed. -/
def pdSample (σ : RngState) (random_state : Option ℕ) (n : ℕ) (xs : List α) :
    List α × RngState :=
  match random_state with
  | some s => ((xs.rotate (s % (xs.length + 1))).take n, σ)
  | none => ((xs.rotate (σ % (xs.length + 1))).take n, σ + 1)

/-- export_web_data.py lines 29-33: the bounded subsample for heavy
analyses — sample 20,000 rows with random_state=42 when the table is
larger, else the full table. -/
def exportHeavySample (σ : RngState) (xs : List α) : List α :=
  if 20000 < xs.length then (pdSample σ (some 42) 20000 xs).1 else xs

/-- The genus-label permutations drawn by the null-model loop
(advanced_sota.py lines 194-196): n_iterations unseeded draws from the
ambient global state. -/
def nullModelPermutations : ℕ → RngState → List String → List (List String)
  | 0, _, _ => []
  | n + 1, σ, xs =>
    let (p, σ2) := drawPermutation σ xs
    p :: nullModelPermutations n σ2 xs

/-! ## Raw-file selection (normalize.py)

normalize_neotoma (lines 56-62) globs the matching raw files and processes
only max(files, key=os.path.getctime) — the single most recently created
file (Python max keeps the first of equally-new files); normalize_pbdb
(lines 14-35) reads every matching file and pd.concat's their rows in file
order. -/

/-- A raw input file: its name, creation time, and the rows it holds. -/
structure RawFile (α : Type) where
  name : String
  ctime : ℕ
  rows : List α
deriving DecidableEq, Repr

/-- Python max(files, key=os.path.getctime): linear scan keeping the current
maximum, replacing only on strictly greater ctime. -/
def maxByCtime : List (RawFile α) → Option (RawFile α)
  | [] => none
  | f :: rest =>
    some (rest.foldl (fun best g => if best.ctime < g.ctime then g else best) f)

/-- The rows normalize_neotoma goes on to normalize: none when no file
matched (lines 57-59), else exactly the newest file's rows (lines 61-71). -/
def normalize_neotoma_rows (files : List (RawFile α)) : Option (List α) :=
  match maxByCtime files with
  | none => none
  | some f => some f.rows

/-- The rows normalize_pbdb goes on to normalize: none when no file matched
(lines 15-17), else the concatenation of every file's rows in file order
(lines 21-35). -/
def normalize_pbdb_rows (files : List (RawFile α)) : Option (List α) :=
  if files.isEmpty then none
  else some (files.foldl (fun acc f => acc ++ f.rows) [])

/-! # Theorems -/

/-- roundHalfEven is the identity on integers. -/
theorem roundHalfEven_intCast (k : ℤ) : roundHalfEven (k : ℚ) = k := by
  unfold roundHalfEven
  simp only [Int.floor_intCast, sub_self]
  norm_num

/-- time_bin always produces an integer multiple of 5 and is unchanged by
re-binning. -/
theorem time_bin_idem (mid : ℚ) : time_bin (time_bin mid) = time_bin mid := by
  unfold time_bin
  rw [mul_div_cancel_right₀ _ (by norm_num : (5 : ℚ) ≠ 0), roundHalfEven_intCast]

/-- C5: For every record with present mid_ma, lat, lng, the time bin equals
round(mid_ma/5)*5 and the locality bin equals (round(lat/5)*5,
round(lng/5)*5), with ties at bin boundaries rounded half-to-even; in
particular mid_ma=500 and mid_ma=501 both map to time_bin=500, and lat=37,
lng=-122 maps to locality_bin=(35,-120).  (The tie conjuncts: 12.5 rounds
down to bin 10, 17.5 rounds up to bin 20, each toward the even quotient.) -/
theorem C5_binning_examples :
    (∀ m : ℚ, time_bin m = (roundHalfEven (m / 5) : ℚ) * 5) ∧
    (∀ la ln : ℚ, locality_bin la ln =
      ((roundHalfEven (la / 5) : ℚ) * 5, (roundHalfEven (ln / 5) : ℚ) * 5)) ∧
    time_bin 500 = 500 ∧
    time_bin 501 = 500 ∧
    locality_bin 37 (-122) = (35, -120) ∧
    time_bin (25 / 2) = 10 ∧
    time_bin (35 / 2) = 20 := by
  refine ⟨fun m => rfl, fun la ln => rfl, ?_, ?_, ?_, ?_, ?_⟩
  · norm_num [time_bin, roundHalfEven]
  · norm_num [time_bin, roundHalfEven]
  · simp only [locality_bin, Prod.mk.injEq]
    constructor
    · norm_num [roundHalfEven]
    · norm_num [roundHalfEven]
  · norm_num [time_bin, roundHalfEven, Int.even_iff]
  · norm_num [time_bin, roundHalfEven, Int.even_iff]

/-- C6: Binning is idempotent (re-binning an already-binned value returns
it unchanged) and consistent: the binning expression of every analysis
component (basic_stats, SQS, rates, null model, export, and the network
engine's time_bin) computes the same function. -/
theorem C6_binning_idempotent_consistent (mid : ℚ) :
    time_bin (time_bin mid) = time_bin mid ∧
    basic_stats_time_bin mid = time_bin mid ∧
    sqs_time_bin mid = time_bin mid ∧
    rates_time_bin mid = time_bin mid ∧
    null_model_time_bin mid = time_bin mid ∧
    export_time_bin mid = time_bin mid := by
  exact ⟨time_bin_idem mid, rfl, rfl, rfl, rfl, rfl⟩

/-- C2 counterexample: a run in which one permutation iteration was
attempted and its graph construction raised.  The bare except swallows the
iteration, null_modularities stays empty, and the p-value division then
raises ZeroDivisionError (modelled none): no p-value in [0,1] is produced
and the test aborts, contradicting the claim for runs with merely "at least
one permutation iteration attempted". -/
theorem C2_counterexample_all_iterations_fail :
    (([none] : List (Option ℚ)) ≠ []) ∧ null_model_p_value 0 [none] = none :=
  ⟨by decide, by decide⟩

/-- C2 (amended): for every run of the null-model significance test with at
least one SUCCESSFUL permutation iteration, the empirical p-value equals
the fraction of successfully permuted-network modularities that are >= the
observed modularity, lies in [0,1], equals 0 when the observed modularity
is strictly higher than every permuted value, and a raising iteration is
silently excluded from the null distribution (the p-value is computed over
the successful iterations only). -/
theorem C2_p_value_amended (observed : ℚ) (iters : List (Option ℚ))
    (h : iters.filterMap id ≠ []) :
    ∃ p, null_model_p_value observed iters = some p ∧
      p = (((iters.filterMap id).countP (fun m => decide (observed ≤ m)) : ℚ) /
        ((iters.filterMap id).length : ℚ)) ∧
      0 ≤ p ∧ p ≤ 1 ∧
      ((∀ m ∈ iters.filterMap id, m < observed) → p = 0) := by
  have hlen : (iters.filterMap id).length ≠ 0 := by
    simpa [List.length_eq_zero] using h
  have hlenpos : (0 : ℚ) < ((iters.filterMap id).length : ℚ) := by
    exact_mod_cast Nat.pos_of_ne_zero hlen
  refine ⟨_, ?_, rfl, ?_, ?_, ?_⟩
  · unfold null_model_p_value
    simp [hlen]
  · positivity
  · rw [div_le_one hlenpos]
    exact_mod_cast List.countP_le_length _
  · intro hall
    have hcount : (iters.filterMap id).countP (fun m => decide (observed ≤ m)) = 0 := by
      rw [List.countP_eq_zero]
      intro m hm
      simpa using not_le.mpr (hall m hm)
    rw [hcount]
    simp

/-- Witness for C2_p_value_amended at observed = 1 and iterations
[some 0, none]. -/
theorem C2_p_value_amended_witness :
    ∃ p, null_model_p_value 1 [some 0, none] = some p ∧
      p = ((([some 0, none] : List (Option ℚ)).filterMap id).countP
          (fun m => decide ((1 : ℚ) ≤ m)) : ℚ) /
        ((([some 0, none] : List (Option ℚ)).filterMap id).length : ℚ) ∧
      0 ≤ p ∧ p ≤ 1 ∧
      ((∀ m ∈ ([some 0, none] : List (Option ℚ)).filterMap id, m < 1) → p = 0) :=
  C2_p_value_amended 1 [some 0, none] (by decide)

/-- getLast? of a cons with nonempty tail is the tail's getLast?. -/
theorem getLast?_cons_ne_nil (a : α) (l : List α) (h : l ≠ []) :
    (a :: l).getLast? = l.getLast? := by
  cases l with
  | nil => exact absurd rfl h
  | cons b t => exact List.getLast?_cons_cons

/-- Unfolding equation for the rates loop on a cons cell. -/
theorem rates_loop_cons (prev : Finset String) (t : ℚ) (current : Finset String)
    (rest : List (ℚ × Finset String)) :
    calculate_rates_loop prev ((t, current) :: rest) =
      if current.card = 0 then calculate_rates_loop prev rest
      else
        { time := t
          origination_rate := ((current \ prev).card : ℚ) / (current.card : ℚ)
          extinction_rate :=
            ((current \ nextGenera rest).card : ℚ) / (current.card : ℚ)
          total_genera := current.card
          originations := (current \ prev).card
          extinctions :=
            (current \ nextGenera rest).card } :: calculate_rates_loop current rest := rfl

/-- Every record emitted by the rates loop has both rates in [0,1]. -/
theorem rates_loop_bounds (bins : List (ℚ × Finset String)) :
    ∀ (prev : Finset String), ∀ r ∈ calculate_rates_loop prev bins,
      0 ≤ r.origination_rate ∧ r.origination_rate ≤ 1 ∧
      0 ≤ r.extinction_rate ∧ r.extinction_rate ≤ 1 := by
  induction bins with
  | nil => intro prev r hr; simp [calculate_rates_loop] at hr
  | cons b rest ih =>
    intro prev r hr
    obtain ⟨t, current⟩ := b
    by_cases hzero : current.card = 0
    · rw [rates_loop_cons, if_pos hzero] at hr
      exact ih prev r hr
    · rw [rates_loop_cons, if_neg hzero] at hr
      have hpos : (0 : ℚ) < (current.card : ℚ) := by
        exact_mod_cast Nat.pos_of_ne_zero hzero
      rw [List.mem_cons] at hr
      rcases hr with hr | hr
      · subst hr
        refine ⟨by positivity, ?_, by positivity, ?_⟩
        · rw [div_le_one hpos]
          exact_mod_cast Finset.card_le_card (Finset.sdiff_subset)
        · rw [div_le_one hpos]
          exact_mod_cast Finset.card_le_card (Finset.sdiff_subset)
      · exact ih current r hr

/-- The oldest processed bin is scored against an empty prior genus set, so
its origination rate is 1. -/
theorem rates_head (t : ℚ) (c : Finset String) (rest : List (ℚ × Finset String))
    (hc : c.Nonempty) :
    ∃ r, (calculate_rates ((t, c) :: rest)).head? = some r ∧
      r.origination_rate = 1 := by
  have hzero : c.card ≠ 0 := Nat.pos_iff_ne_zero.mp (Finset.card_pos.mpr hc)
  rw [calculate_rates, rates_loop_cons, if_neg hzero]
  refine ⟨_, rfl, ?_⟩
  show ((c \ ∅).card : ℚ) / (c.card : ℚ) = 1
  rw [Finset.sdiff_empty]
  exact div_self (by exact_mod_cast hzero)

/-- The youngest processed bin is scored against an empty next genus set, so
its extinction rate is 1. -/
theorem rates_last (bins : List (ℚ × Finset String)) :
    ∀ (prev : Finset String), bins ≠ [] →
      (∀ p ∈ bins, (p.2 : Finset String).Nonempty) →
      ∃ r, (calculate_rates_loop prev bins).getLast? = some r ∧
        r.extinction_rate = 1 := by
  induction bins with
  | nil => intro prev hne _; exact absurd rfl hne
  | cons b rest ih =>
    intro prev _ hall
    obtain ⟨t, c⟩ := b
    have hc : c.Nonempty := hall (t, c) (List.mem_cons_self _ _)
    have hzero : c.card ≠ 0 := Nat.pos_iff_ne_zero.mp (Finset.card_pos.mpr hc)
    cases rest with
    | nil =>
      rw [rates_loop_cons, if_neg hzero]
      refine ⟨_, rfl, ?_⟩
      show ((c \ nextGenera []).card : ℚ) / (c.card : ℚ) = 1
      rw [nextGenera, Finset.sdiff_empty]
      exact div_self (by exact_mod_cast hzero)
    | cons b2 rest2 =>
      obtain ⟨r, hr, hrate⟩ := ih c (by simp)
        (fun p hp => hall p (List.mem_cons_of_mem _ hp))
      have hne2 : calculate_rates_loop c (b2 :: rest2) ≠ [] := by
        intro heq
        rw [heq] at hr
        simp at hr
      refine ⟨r, ?_, hrate⟩
      rw [rates_loop_cons, if_neg hzero, getLast?_cons_ne_nil _ _ hne2]
      exact hr

/-- C3: For every non-empty sequence of time bins processed
oldest-to-youngest (each bin holding a nonempty genus set, as every bin
present in the data does), each emitted origination and extinction rate
lies in [0,1]; the first (oldest) record's origination rate is 1.0 (its
genera are counted against an empty prior set) and the last (youngest)
record's extinction rate is 1.0 (nothing confirms survival). -/
theorem C3_rates_bounds_and_edges (bins : List (ℚ × Finset String))
    (hne : bins ≠ []) (hall : ∀ p ∈ bins, (p.2 : Finset String).Nonempty) :
    (∀ r ∈ calculate_rates bins,
      0 ≤ r.origination_rate ∧ r.origination_rate ≤ 1 ∧
      0 ≤ r.extinction_rate ∧ r.extinction_rate ≤ 1) ∧
    (∃ r, (calculate_rates bins).head? = some r ∧ r.origination_rate = 1) ∧
    (∃ r, (calculate_rates bins).getLast? = some r ∧ r.extinction_rate = 1) := by
  refine ⟨fun r hr => rates_loop_bounds bins ∅ r hr, ?_, rates_last bins ∅ hne hall⟩
  cases bins with
  | nil => exact absurd rfl hne
  | cons b rest =>
    obtain ⟨t, c⟩ := b
    exact rates_head t c rest (hall (t, c) (List.mem_cons_self _ _))

/-- Witness for C3 on the two-bin series (bin 10 Ma holding genus A, bin
5 Ma holding genus B). -/
theorem C3_rates_witness :
    (∀ r ∈ calculate_rates [(10, {"A"}), (5, {"B"})],
      0 ≤ r.origination_rate ∧ r.origination_rate ≤ 1 ∧
      0 ≤ r.extinction_rate ∧ r.extinction_rate ≤ 1) ∧
    (∃ r, (calculate_rates [(10, {"A"}), (5, {"B"})]).head? = some r ∧
      r.origination_rate = 1) ∧
    (∃ r, (calculate_rates [(10, {"A"}), (5, {"B"})]).getLast? = some r ∧
      r.extinction_rate = 1) :=
  C3_rates_bounds_and_edges [(10, {"A"}), (5, {"B"})] (by decide) (by decide)

/-- Consuming frequency shares toward a smaller quota stops no later than
toward a larger one. -/
theorem sqsConsume_mono (q q' : ℚ) (hqq : q ≤ q') :
    ∀ (l : List ℚ) (acc : ℚ), sqsConsume q acc l ≤ sqsConsume q' acc l := by
  intro l
  induction l with
  | nil => intro acc; simp [sqsConsume]
  | cons f rest ih =>
    intro acc
    by_cases hq' : q' ≤ acc + f
    · have hq : q ≤ acc + f := le_trans hqq hq'
      simp [sqsConsume, if_pos hq, if_pos hq']
    · rw [sqsConsume, sqsConsume, if_neg hq']
      by_cases hq : q ≤ acc + f
      · rw [if_pos hq]
        exact Nat.le_add_right 1 _
      · rw [if_neg hq]
        exact Nat.add_le_add_left (ih (acc + f)) 1

/-- When the quota is exactly the total share, every genus is consumed:
starting from a running total acc with acc + sum l = 1 and all shares
positive, the loop consumes the whole list. -/
theorem sqsConsume_full :
    ∀ (l : List ℚ) (acc : ℚ), (∀ f ∈ l, 0 < f) → acc + l.sum = 1 →
      sqsConsume 1 acc l = l.length := by
  intro l
  induction l with
  | nil => intro acc _ _; simp [sqsConsume]
  | cons f rest ih =>
    intro acc hpos hsum
    rw [List.sum_cons] at hsum
    cases rest with
    | nil =>
      have : acc + f = 1 := by simpa using hsum
      simp [sqsConsume, this]
    | cons f2 rest2 =>
      have hrest : 0 < (f2 :: rest2).sum :=
        List.sum_pos _ (fun a ha => hpos a (List.mem_cons_of_mem _ ha)) (by simp)
      have hlt : ¬ (1 : ℚ) ≤ acc + f := by
        intro hle
        have : acc + (f + (f2 :: rest2).sum) = 1 := hsum
        nlinarith [hrest]
      rw [sqsConsume, if_neg hlt, ih (acc + f)
        (fun a ha => hpos a (List.mem_cons_of_mem _ ha)) (by linarith [hsum])]
      simp only [List.length_cons]
      omega

/-- Distributing a constant divisor over a list sum. -/
theorem list_sum_map_div (l : List ℕ) (d : ℚ) :
    (l.map (fun (c : ℕ) => (c : ℚ) / d)).sum = ((l.sum : ℕ) : ℚ) / d := by
  induction l with
  | nil => simp
  | cons c rest ih => simp [ih, add_div]

/-- C4: For a fixed nonempty bin (a fixed multiset of genus occurrences),
the SQS diversity count is monotonically non-decreasing as the quota
increases over (0,1], and at quota 1.0 it equals the bin's full
distinct-genus count. -/
theorem C4_sqs_monotone_and_full (occs : List String) (q q' : ℚ)
    (hocc : occs ≠ []) (_h0 : 0 < q) (hqq : q ≤ q') (_h1 : q' ≤ 1) :
    calculate_sqs_diversity occs q ≤ calculate_sqs_diversity occs q' ∧
    calculate_sqs_diversity occs 1 = occs.dedup.length := by
  constructor
  · exact sqsConsume_mono q q' hqq _ 0
  · unfold calculate_sqs_diversity
    have hlen : occs.length ≠ 0 := by
      simpa [List.length_eq_zero] using hocc
    have hlenpos : (0 : ℚ) < (occs.length : ℚ) := by
      exact_mod_cast Nat.pos_of_ne_zero hlen
    set freqs := (value_counts occs).map (fun (c : ℕ) => (c : ℚ) / (occs.length : ℚ))
      with hfreqs
    set sorted := List.insertionSort (fun a b : ℚ => b ≤ a) freqs with hsorted
    have hperm : sorted.Perm freqs := List.perm_insertionSort _ _
    have hfsum : freqs.sum = 1 := by
      rw [hfreqs, list_sum_map_div]
      unfold value_counts
      rw [List.sum_map_count_dedup_eq_length]
      exact div_self (by exact_mod_cast hlen)
    have hfpos : ∀ f ∈ freqs, 0 < f := by
      intro f hf
      rw [hfreqs, List.mem_map] at hf
      obtain ⟨c, hc, rfl⟩ := hf
      unfold value_counts at hc
      rw [List.mem_map] at hc
      obtain ⟨g, hg, rfl⟩ := hc
      have hcount : 0 < occs.count g :=
        List.count_pos_iff.mpr (List.mem_dedup.mp hg)
      exact div_pos (by exact_mod_cast hcount) hlenpos
    have hsortedsum : sorted.sum = 1 := by rw [hperm.sum_eq, hfsum]
    have hsortedpos : ∀ f ∈ sorted, 0 < f :=
      fun f hf => hfpos f (hperm.mem_iff.mp hf)
    rw [sqsConsume_full sorted 0 hsortedpos (by rw [zero_add, hsortedsum]),
      hperm.length_eq, hfreqs, List.length_map]
    unfold value_counts
    rw [List.length_map]

/-- Witness for C4 on the bin with occurrences [a, a, b] and quotas 1/2
and 1. -/
theorem C4_sqs_witness :
    calculate_sqs_diversity ["a", "a", "b"] (1 / 2) ≤
      calculate_sqs_diversity ["a", "a", "b"] 1 ∧
    calculate_sqs_diversity ["a", "a", "b"] 1 = ["a", "a", "b"].dedup.length :=
  C4_sqs_monotone_and_full ["a", "a", "b"] (1 / 2) 1 (by decide) (by norm_num)
    (by norm_num) (by norm_num)

/-- The add-missing-columns fold only appends: the input columns stay a
prefix of the output. -/
theorem addMissing_fold_extends (S : List (String × String)) :
    ∀ (nrows : ℕ) (acc : List (String × Column)),
      ∃ ext, S.foldl
        (fun acc p =>
          if dfHasCol acc p.1 then acc
          else acc ++ [(p.1, List.replicate nrows Cell.null)]) acc = acc ++ ext := by
  induction S with
  | nil => intro nrows acc; exact ⟨[], by simp⟩
  | cons p rest ih =>
    intro nrows acc
    rw [List.foldl_cons]
    by_cases h : dfHasCol acc p.1
    · rw [if_pos h]; exact ih nrows acc
    · rw [if_neg h]
      obtain ⟨ext, hext⟩ := ih nrows (acc ++ [(p.1, List.replicate nrows Cell.null)])
      exact ⟨[(p.1, List.replicate nrows Cell.null)] ++ ext, by rw [hext, List.append_assoc]⟩

/-- A column name absent from a frame has find? = none there. -/
theorem find?_eq_none_of_not_hasCol (cols : List (String × Column)) (c : String)
    (h : dfHasCol cols c = false) : cols.find? (fun p => p.1 == c) = none := by
  rw [List.find?_eq_none]
  intro p hp
  intro hbeq
  have : cols.any (fun p => p.1 == c) = true := List.any_of_mem hp hbeq
  rw [dfHasCol] at h
  rw [h] at this
  exact Bool.false_ne_true this

/-- After the add-missing fold, a schema column that the input frame lacked
is bound to the all-None column. -/
theorem addMissing_lookup_missing (S : List (String × String)) :
    ∀ (nrows : ℕ) (acc : List (String × Column)) (c : String),
      (∃ d, (c, d) ∈ S) → dfHasCol acc c = false →
      dfLookup (S.foldl
        (fun acc p =>
          if dfHasCol acc p.1 then acc
          else acc ++ [(p.1, List.replicate nrows Cell.null)]) acc) c =
        List.replicate nrows Cell.null := by
  induction S with
  | nil => intro nrows acc c hc _; simp at hc
  | cons p rest ih =>
    intro nrows acc c hc hacc
    rw [List.foldl_cons]
    by_cases hp : p.1 = c
    · rw [hp, if_neg (by rw [hacc]; exact Bool.false_ne_true)]
      obtain ⟨ext, hext⟩ := addMissing_fold_extends rest nrows
        (acc ++ [(c, List.replicate nrows Cell.null)])
      rw [hext, dfLookup, List.append_assoc, List.find?_append,
        find?_eq_none_of_not_hasCol acc c hacc]
      simp
    · have hnext : ∀ acc2 : List (String × Column),
          dfHasCol acc2 c = false →
          dfHasCol (if dfHasCol acc2 p.1 then acc2
            else acc2 ++ [(p.1, List.replicate nrows Cell.null)]) c = false := by
        intro acc2 h2
        by_cases hin : dfHasCol acc2 p.1
        · rw [if_pos hin]; exact h2
        · rw [if_neg hin, dfHasCol, List.any_append]
          rw [dfHasCol] at h2
          simp [h2, hp]
      have hcrest : ∃ d, (c, d) ∈ rest := by
        obtain ⟨d, hd⟩ := hc
        rcases List.mem_cons.mp hd with heq | hmem
        · exact absurd (congrArg Prod.fst heq).symm hp
        · exact ⟨d, hmem⟩
      exact ih nrows _ c hcrest (hnext acc hacc)

/-- C7: For every raw input table, the finalized table has exactly the
canonical schema's column set, in the schema's declared order; a canonical
field absent from the input is added (as an all-null column, which the
dtype coercion then maps like any all-null column) rather than omitted. -/
theorem C7_schema_conformance (df : DataFrame) :
    (finalizeDataFrame df).cols.map Prod.fst = OCCURRENCE_SCHEMA.map Prod.fst ∧
    (∀ c d, (c, d) ∈ OCCURRENCE_SCHEMA → dfHasCol df.cols c = false →
      dfLookup (addMissingCols df.nrows df.cols) c =
        List.replicate df.nrows Cell.null) := by
  constructor
  · rw [finalizeDataFrame, List.map_map]
    rfl
  · intro c d hcd hmiss
    exact addMissing_lookup_missing OCCURRENCE_SCHEMA df.nrows df.cols c ⟨d, hcd⟩ hmiss

/-- Witness for C7 on a one-row frame holding only a genus column: the
finalized column list is the schema's, and the absent lat column was added
as an all-null column. -/
theorem C7_schema_conformance_witness :
    ((("lat" : String), ("float64" : String)) ∈ OCCURRENCE_SCHEMA) ∧
    (finalizeDataFrame ⟨1, [("genus", [Cell.str "Tyrannosaurus"])]⟩).cols.map Prod.fst =
      OCCURRENCE_SCHEMA.map Prod.fst ∧
    dfLookup (addMissingCols 1 [("genus", [Cell.str "Tyrannosaurus"])]) "lat" =
      List.replicate 1 Cell.null :=
  ⟨by decide,
   (C7_schema_conformance ⟨1, [("genus", [Cell.str "Tyrannosaurus"])]⟩).1,
   (C7_schema_conformance ⟨1, [("genus", [Cell.str "Tyrannosaurus"])]⟩).2
     "lat" "float64" (by decide) (by decide)⟩

/-- C8: For every sequence of time-bin groups processed by the Network
Engine, the result list is exactly one row per qualifying bin (enough
occurrences, localities and genera), in order: a bin whose graph
construction or community detection raised still produces its result row —
with modularity recorded as missing (none) and the other per-bin aggregates
(mean absolute latitude, raw diversity) intact, since sotaRowOf copies
graphComp verbatim — and processing of all remaining bins continues; no
exception in one bin truncates the batch. -/
theorem C8_per_bin_failure_is_local (gs : List BinGroup) :
    analyze_biogeographic_dynamics gs = (gs.filter sotaQualifies).map sotaRowOf := by
  induction gs with
  | nil => rfl
  | cons g rest ih =>
    by_cases h100 : g.rows.length < 100
    · have hq : sotaQualifies g = false := by
        unfold sotaQualifies
        simp [Nat.not_le.mpr h100]
      rw [analyze_biogeographic_dynamics, if_pos h100, List.filter_cons, hq, ih]
      simp
    · by_cases hsmall : (binLocalities g).card < 5 ∨ (binGenera g).card < 5
      · have hq : sotaQualifies g = false := by
          unfold sotaQualifies
          rcases hsmall with h | h
          · simp [Nat.not_le.mpr h]
          · simp [Nat.not_le.mpr h]
        rw [analyze_biogeographic_dynamics, if_neg h100, if_pos hsmall,
          List.filter_cons, hq, ih]
        simp
      · have hq : sotaQualifies g = true := by
          unfold sotaQualifies
          push_neg at hsmall
          simp [Nat.le_of_not_lt h100, hsmall.1, hsmall.2]
        rw [analyze_biogeographic_dynamics, if_neg h100, if_neg hsmall,
          List.filter_cons, hq, ih]
        simp

/-- C9 counterexample: the null-model genus-label permutations are NOT
drawn with a fixed seed — calculate_null_model calls
np.random.permutation with no seeding, so the permutations drawn depend on
the ambient global RNG state, and two runs of the same analysis on the same
table can differ: here one iteration over the same two-genus column yields
different shuffles under ambient states 0 and 1. -/
theorem C9_counterexample_null_model_unseeded :
    nullModelPermutations 1 0 ["a", "b"] ≠ nullModelPermutations 1 1 ["a", "b"] := by
  decide

/-- C9 (amended): the bounded random subsample for heavy computations IS
reproducible — export_web_data draws it with the fixed seed
random_state=42, so the subsample is the same function of the data
whatever the ambient global RNG state; the null-model genus-label
permutations, by contrast, are drawn from the unseeded global state (see
the counterexample) and are not reproducible across runs. -/
theorem C9_fixed_seed_subsample_reproducible (σ σ2 : RngState) (xs : List ℚ) :
    exportHeavySample σ xs = exportHeavySample σ2 xs := by
  unfold exportHeavySample
  by_cases h : 20000 < xs.length
  · rw [if_pos h, if_pos h]
    rfl
  · rw [if_neg h, if_neg h]

/-- Python max(files, key=ctime) returns a file at least as new as every
file in the list. -/
theorem maxByCtime_is_max (files : List (RawFile α)) (f : RawFile α)
    (hf : maxByCtime files = some f) : ∀ g ∈ files, g.ctime ≤ f.ctime := by
  cases files with
  | nil => simp [maxByCtime] at hf
  | cons a rest =>
    rw [maxByCtime, Option.some.injEq] at hf
    subst hf
    have key : ∀ (l : List (RawFile α)) (start : RawFile α),
        (∀ g ∈ l, g.ctime ≤
          (l.foldl (fun best g => if best.ctime < g.ctime then g else best) start).ctime) ∧
        start.ctime ≤
          (l.foldl (fun best g => if best.ctime < g.ctime then g else best) start).ctime := by
      intro l
      induction l with
      | nil => intro start; exact ⟨by simp, le_refl _⟩
      | cons b t ih =>
        intro start
        rw [List.foldl_cons]
        by_cases hlt : start.ctime < b.ctime
        · rw [if_pos hlt]
          refine ⟨?_, le_trans (le_of_lt hlt) (ih b).2⟩
          intro g hg
          rcases List.mem_cons.mp hg with rfl | hg
          · exact (ih g).2
          · exact (ih b).1 g hg
        · rw [if_neg hlt]
          refine ⟨?_, (ih start).2⟩
          intro g hg
          rcases List.mem_cons.mp hg with rfl | hg
          · exact le_trans (Nat.le_of_not_lt hlt) (ih start).2
          · exact (ih start).1 g hg
    intro g hg
    rcases List.mem_cons.mp hg with rfl | hg
    · exact (key rest g).2
    · exact (key rest a).1 g hg

/-- C10: When multiple raw files match, the Neotoma normalizer reads only
the single most recently created file — its output rows are exactly that
one file's rows, every older matching file contributing nothing — whereas
the PBDB normalizer concatenates the rows of every matching file, in file
order, before normalizing. -/
theorem C10_file_selection (files : List (RawFile String)) (f : RawFile String)
    (hsel : maxByCtime files = some f) (hne : files ≠ []) :
    normalize_neotoma_rows files = some f.rows ∧
    (∀ g ∈ files, g.ctime ≤ f.ctime) ∧
    normalize_pbdb_rows files = some (files.foldl (fun acc fl => acc ++ fl.rows) []) := by
  refine ⟨?_, maxByCtime_is_max files f hsel, ?_⟩
  · rw [normalize_neotoma_rows, hsel]
  · rw [normalize_pbdb_rows, if_neg (by simpa [List.isEmpty_iff] using hne)]

/-- Witness for C10 on two Neotoma-style files, the second created later:
only the newer file's rows are normalized, and the PBDB path concatenates
both. -/
theorem C10_file_selection_witness :
    normalize_neotoma_rows
        [⟨"neotoma_occurrences_1.json", 1, ["old"]⟩,
         ⟨"neotoma_occurrences_2.json", 2, ["new"]⟩] = some ["new"] ∧
    (∀ g ∈ [(⟨"neotoma_occurrences_1.json", 1, ["old"]⟩ : RawFile String),
            ⟨"neotoma_occurrences_2.json", 2, ["new"]⟩],
      g.ctime ≤ (⟨"neotoma_occurrences_2.json", 2, ["new"]⟩ : RawFile String).ctime) ∧
    normalize_pbdb_rows
        [⟨"neotoma_occurrences_1.json", 1, ["old"]⟩,
         ⟨"neotoma_occurrences_2.json", 2, ["new"]⟩] =
      some ([(⟨"neotoma_occurrences_1.json", 1, ["old"]⟩ : RawFile String),
             ⟨"neotoma_occurrences_2.json", 2, ["new"]⟩].foldl
        (fun acc fl => acc ++ fl.rows) []) :=
  C10_file_selection
    [⟨"neotoma_occurrences_1.json", 1, ["old"]⟩,
     ⟨"neotoma_occurrences_2.json", 2, ["new"]⟩]
    ⟨"neotoma_occurrences_2.json", 2, ["new"]⟩ (by decide) (by decide)

/-- Evaluation of the shared time bin at 500 Ma. -/
theorem time_bin_at_500 : time_bin 500 = 500 := by
  norm_num [time_bin, roundHalfEven]

/-- C1: evaluation at the failing input.  A source record with mid_ma=500
and no genus value is normalized by _finalize_dataframe into a row whose
genus is the literal string "None" (astype(str) stringifies the added null),
so the analyses' dropna(subset=["mid_ma", "genus"]) does NOT exclude it and
it contributes the genus "None" to time bin 500's diversity count (first
two conjuncts) — contradicting the claim that records lacking a usable
genus are excluded from every bin-based analysis.  A record lacking mid_ma,
by contrast, is excluded from every bin (third conjunct): the float64
coercion keeps the missing age as NaN, which dropna removes. -/
theorem C1_missing_genus_not_excluded :
    rowsOf (finalizeDataFrame ⟨1, [("mid_ma", [Cell.num 500])]⟩) =
      [{ mid_ma := some 500, genus := some "None" }] ∧
    plot_diversity_curve_count
      (rowsOf (finalizeDataFrame ⟨1, [("mid_ma", [Cell.num 500])]⟩)) 500 = 1 ∧
    (∀ b : ℚ, plot_diversity_curve_count
      (rowsOf (finalizeDataFrame ⟨1, [("genus", [Cell.str "Trilobita"])]⟩)) b = 0) := by
  have hrows : rowsOf (finalizeDataFrame ⟨1, [("mid_ma", [Cell.num 500])]⟩) =
      [{ mid_ma := some 500, genus := some "None" }] := by decide
  have hrows2 : rowsOf (finalizeDataFrame ⟨1, [("genus", [Cell.str "Trilobita"])]⟩) =
      [{ mid_ma := none, genus := some "Trilobita" }] := by decide
  refine ⟨hrows, ?_, ?_⟩
  · rw [hrows]
    simp [plot_diversity_curve_count, dropnaMidGenus, List.filter, List.filterMap,
      time_bin_at_500]
  · intro b
    rw [hrows2]
    simp [plot_diversity_curve_count, dropnaMidGenus, List.filter]

end Paleo
